import Mathlib

/-!
# Verification of the impi import-order verifier

Shallow embedding of the verification engine of the `impi` repository
(`verifier.go`, the scheme definitions, `impi.go` declarations), together
with theorems settling the frozen claims about it.

Line numbers of source files are modelled as `Nat` (the parser produces
1-based line numbers).  Go strings are modelled as Lean `String`; Go's
byte-wise lexicographic comparison on valid UTF-8 strings coincides with
the codepoint-lexicographic order that Lean's `String` order implements,
since UTF-8 encoding preserves codepoint order.
-/

namespace Impi

/-- `importType` from verifier.go: the category a path is classified into. -/
inductive importType where
  | importTypeUnknown
  | importTypeStd
  | importTypeLocal
  | importTypeThirdParty
  | importTypeLocalOrThirdParty
deriving DecidableEq, Repr, Inhabited

export importType (importTypeUnknown importTypeStd importTypeLocal
  importTypeThirdParty importTypeLocalOrThirdParty)

/-- `importTypeName` from verifier.go: the human-readable name of each
category, used when formatting the group-order error. -/
def importTypeName : importType → String
  | .importTypeUnknown => "Unknown"
  | .importTypeStd => "Std"
  | .importTypeLocal => "Local"
  | .importTypeThirdParty => "Third party"
  | .importTypeLocalOrThirdParty => "Local or third party"

/-- `importInfo` from verifier.go: one parsed import record.
`lineNumStart` is the first line of an attached leading comment when one
is present, else the line of the path literal (set by `parseImports`). -/
structure importInfo where
  lineNumStart : Nat
  lineNumEnd : Nat
  lineNumImport : Nat
  path : String
  classifiedType : importType
deriving DecidableEq, Repr, Inhabited

/-- `importDeclaration` from verifier.go: one top-level import declaration
with its records. -/
structure importDeclaration where
  lineNumStart : Nat
  lineNumEnd : Nat
  importInfos : List importInfo
deriving DecidableEq, Repr, Inhabited

/-- `importInfoGroup` from verifier.go: one contiguous group of records. -/
structure importInfoGroup where
  importInfos : List importInfo
deriving DecidableEq, Repr, Inhabited

/-- `ImportGroupVerificationScheme` from impi.go: the scheme selector.
`Single` and `StdNonStd` are declared but not supported by
`getVerificationScheme`. -/
inductive ImportGroupVerificationScheme where
  | Single
  | StdNonStd
  | StdLocalThirdParty
  | StdThirdPartyLocal
deriving DecidableEq, Repr, Inhabited

/-- `VerifyOptions` from impi.go (the fields the verifier reads; the
orchestrator-only fields are omitted from the per-file model). -/
structure VerifyOptions where
  SkipTests : Bool := false
  Scheme : ImportGroupVerificationScheme
  LocalPrefix : String := ""
  IgnoreGenerated : Bool := false
deriving Repr, Inhabited

/-- Models Go `strings.Contains(s, ".")`: the needle is a single character,
so containment is the presence of some character equal to it. -/
def stringContainsChar (s : String) (c : Char) : Bool :=
  s.data.any fun a => a == c

/-- Models Go `strings.HasPrefix(s, prefix)` on valid UTF-8 strings. -/
def stringHasPrefix (s pre : String) : Bool :=
  pre.data.isPrefixOf s.data

/-- `classifyImportType` from verifier.go: no dot means std; with a dot,
an unset local prefix means ambiguous, otherwise the prefix decides
local versus third-party. -/
def classifyImportType (localPrefix : String) (path : String) : importType :=
  if !stringContainsChar path '.' then
    importTypeStd
  else if localPrefix.length = 0 then
    importTypeLocalOrThirdParty
  else if stringHasPrefix path localPrefix then
    importTypeLocal
  else
    importTypeThirdParty

/-- `verificationScheme` from verifier.go: the interface a scheme
implements, as a record of its three accessors. -/
structure verificationScheme where
  getMaxNumGroups : Nat
  getMixedGroupsAllowed : Bool
  getAllowedImportOrders : List (List importType)
deriving Repr

/-- The `stdLocalThirdParty` scheme: `GetMaxNumGroups`,
`GetMixedGroupsAllowed` and `GetAllowedImportOrders` from the scheme
source file (`src/unnamed/part_000`): seven allowed orderings, every
non-empty order-preserving subsequence of std, local, thirdParty. -/
def stdLocalThirdPartyScheme : verificationScheme where
  getMaxNumGroups := 3
  getMixedGroupsAllowed := false
  getAllowedImportOrders :=
    [[importTypeStd],
     [importTypeLocal],
     [importTypeThirdParty],
     [importTypeStd, importTypeLocal],
     [importTypeStd, importTypeThirdParty],
     [importTypeLocal, importTypeThirdParty],
     [importTypeStd, importTypeLocal, importTypeThirdParty]]

/-- Modelled from the spec: the source file of the `stdThirdPartyLocal`
scheme is not under src/ (only its test file is).  Per the spec it
applies the "identical subset rule" with thirdParty and local swapped:
every order-preserving, possibly-partial — including empty — subsequence
of std, thirdParty, local; same maxGroups and mixed policy. -/
def stdThirdPartyLocalScheme : verificationScheme where
  getMaxNumGroups := 3
  getMixedGroupsAllowed := false
  getAllowedImportOrders :=
    [[],
     [importTypeStd],
     [importTypeThirdParty],
     [importTypeLocal],
     [importTypeStd, importTypeThirdParty],
     [importTypeStd, importTypeLocal],
     [importTypeThirdParty, importTypeLocal],
     [importTypeStd, importTypeThirdParty, importTypeLocal]]

/-- `getVerificationScheme` from verifier.go: the closed scheme registry;
every selector other than the two built-ins is unsupported. -/
def getVerificationScheme (opts : VerifyOptions) :
    Except String verificationScheme :=
  match opts.Scheme with
  | .StdLocalThirdParty => .ok stdLocalThirdPartyScheme
  | .StdThirdPartyLocal => .ok stdThirdPartyLocalScheme
  | _ => .error "Unsupported verification scheme"

/-- The classification step of `parseImports` from verifier.go: each
record's `classifiedType` field is set to `classifyImportType` of its
path.  (Parsing proper — go/ast — is the external parse collaborator;
its output is the `importDeclaration` list this function receives.) -/
def parseClassify (opts : VerifyOptions) (decls : List importDeclaration) :
    List importDeclaration :=
  decls.map fun d =>
    { d with importInfos := d.importInfos.map fun i =>
        { i with classifiedType := classifyImportType opts.LocalPrefix i.path } }

/-- The per-declaration test of `filterImportC` from verifier.go: the
declaration has a record with path "C" and no record with another path. -/
def declIsOnlyImportC (d : importDeclaration) : Bool :=
  (d.importInfos.any fun i => i.path == "C") &&
    !(d.importInfos.any fun i => i.path != "C")

/-- `filterImportC` from verifier.go: drop every declaration that consists
solely of the `import "C"` pseudo-import; keep all others. -/
def filterImportC (decls : List importDeclaration) : List importDeclaration :=
  decls.filter fun d => !declIsOnlyImportC d

/-- The loop body of `groupImports` from verifier.go for one declaration:
`lastLine` is the previous record's end line (0 before the first record),
`group` the records accumulated for the current group.  A record whose
start line is not exactly `lastLine + 1` flushes the current group; the
final group is emitted when input ends, if non-empty. -/
def groupLoop (lastLine : Nat) (group : List importInfo) :
    List importInfo → List (List importInfo)
  | [] => if group.isEmpty then [] else [group]
  | info :: rest =>
    if 0 < lastLine ∧ info.lineNumStart ≠ lastLine + 1 then
      group :: groupLoop info.lineNumEnd [info] rest
    else
      groupLoop info.lineNumEnd (group ++ [info]) rest

/-- `groupImports` from verifier.go: group each declaration's records by
source-line adjacency, concatenating the groups of all declarations. -/
def groupImports (decls : List importDeclaration) : List importInfoGroup :=
  (decls.map fun d => (groupLoop 0 [] d.importInfos).map importInfoGroup.mk).flatten

/-- Models Go `fmt`'s `%q` applied to a string slice: quoted entries,
space-separated, in square brackets (no entry needs escaping here). -/
def goQuoteList (xs : List String) : String :=
  "[" ++ String.intercalate " " (xs.map fun s => "\"" ++ s ++ "\"") ++ "]"

/-- A dummy record standing for the value Go would read out of bounds;
`verifyNonMixedGroups` and `verifyGroupOrder` index `importInfos[0]`,
which is proved never to be out of bounds on the output of
`groupImports` (every emitted group is non-empty). -/
def dummyImportInfo : importInfo :=
  { lineNumStart := 0, lineNumEnd := 0, lineNumImport := 0,
    path := "", classifiedType := importTypeUnknown }

/-- `verifyNonMixedGroups` from verifier.go: for each group, every record
must have the first record's classified type; the first mismatch anywhere
produces the error naming the group index and the two paths. -/
def verifyNonMixedGroupsLoop (idx : Nat) :
    List importInfoGroup → Except String Unit
  | [] => .ok ()
  | g :: rest =>
    let first := g.importInfos.headD dummyImportInfo
    match g.importInfos.find? fun i =>
        i.classifiedType ≠ first.classifiedType with
    | some bad =>
      .error ("Imports of different types are not allowed in the same group ("
        ++ toString idx ++ "): " ++ first.path ++ " != " ++ bad.path)
    | none => verifyNonMixedGroupsLoop (idx + 1) rest

/-- Entry point of `verifyNonMixedGroups` from verifier.go. -/
def verifyNonMixedGroups (groups : List importInfoGroup) :
    Except String Unit :=
  verifyNonMixedGroupsLoop 0 groups

/-- `verifyGroupOrder` from verifier.go: the sequence of first-record
types of the groups must equal one of the scheme's allowed orders. -/
def verifyGroupOrder (groups : List importInfoGroup)
    (allowedImportOrders : List (List importType)) : Except String Unit :=
  let existingImportOrder :=
    groups.map fun g => (g.importInfos.headD dummyImportInfo).classifiedType
  if allowedImportOrders.any fun o => o = existingImportOrder then
    .ok ()
  else
    .error ("Import groups are not in the proper order: "
      ++ goQuoteList (existingImportOrder.map importTypeName))

/-- Models Go's byte-wise `<` on strings at the character-list level
(UTF-8 byte order coincides with codepoint order); equivalent to Lean's
`List.lt`, in an executable form the kernel can evaluate. -/
def charListLt : List Char → List Char → Bool
  | _, [] => false
  | [], _ :: _ => true
  | a :: as, b :: bs =>
    if a < b then true else if b < a then false else charListLt as bs

/-- Boolean `a ≤ b` on strings in byte-wise lexicographic order, as Go's
`sort` package derives it from `Less`: not `b < a`. -/
def stringLeb (a b : String) : Bool :=
  !charListLt b.data a.data

/-- Models Go `sort.StringsAreSorted`: no adjacent descent, i.e. the list
is non-decreasing in byte-wise (= codepoint-wise) lexicographic order. -/
def stringsAreSorted : List String → Bool
  | [] => true
  | [_] => true
  | a :: b :: t => !charListLt b.data a.data && stringsAreSorted (b :: t)

/-- Insertion step of `sortStrings`. -/
def orderedInsertGo (a : String) : List String → List String
  | [] => [a]
  | b :: l => if stringLeb a b then a :: b :: l else b :: orderedInsertGo a l

/-- Models Go `sort.Sort(sort.StringSlice(...))`: the (unique)
non-decreasing reordering of the paths, computed by insertion sort. -/
def sortStrings : List String → List String
  | [] => []
  | b :: l => orderedInsertGo b (sortStrings l)

/-- The path list of a group, as built by `verifyImportInfoGroupsOrder`. -/
def groupPaths (g : importInfoGroup) : List String :=
  g.importInfos.map importInfo.path

/-- The per-group entry appended to the error string by
`verifyImportInfoGroupsOrder` for an unsorted group: the group index, the
observed order, then the expected sorted order. -/
def groupEntry (idx : Nat) (paths : List String) : String :=
  "\n- Import group " ++ toString idx ++ " is not sorted\n-- Got:\n"
    ++ String.intercalate "\n" paths
    ++ "\n\n-- Expected:\n" ++ String.intercalate "\n" (sortStrings paths)
    ++ "\n"

/-- The error-string accumulation loop of `verifyImportInfoGroupsOrder`
from verifier.go: sorted groups contribute nothing, each unsorted group
appends its entry. -/
def buildErrorString (idx : Nat) : List importInfoGroup → String
  | [] => ""
  | g :: rest =>
    (if stringsAreSorted (groupPaths g) then "" else groupEntry idx (groupPaths g))
      ++ buildErrorString (idx + 1) rest

/-- `verifyImportInfoGroupsOrder` from verifier.go: fail with the combined
message iff any group is unsorted. -/
def verifyImportInfoGroupsOrder (groups : List importInfoGroup) :
    Except String Unit :=
  let errorString := buildErrorString 0 groups
  if errorString.length ≠ 0 then .error errorString else .ok ()

/-- Two records are line-adjacent when the second starts exactly one line
after the first ends: `groupImports` keeps them in one group. -/
def lineAdjacent (a b : importInfo) : Prop :=
  b.lineNumStart = a.lineNumEnd + 1

/-- Between two consecutive emitted groups there is a line gap: the head
of the second group does not start exactly one line after the last record
of the first group ends. -/
def groupGap (g₁ g₂ : List importInfo) : Prop :=
  ∀ a b, g₁.getLast? = some a → g₂.head? = some b →
    b.lineNumStart ≠ a.lineNumEnd + 1

/-- Loop invariant of `groupLoop`: `lastLine` is 0 only before the first
record (when the accumulated group is empty), and when positive it is the
end line of the last accumulated record. -/
def groupInv (lastLine : Nat) (group : List importInfo) : Prop :=
  (lastLine = 0 → group = []) ∧
    (0 < lastLine → ∃ a, group.getLast? = some a ∧ a.lineNumEnd = lastLine)

/-- `verify` from verifier.go, from the point where the parse collaborator
has produced the import declarations (the generated-file shortcut and the
parser itself are external): classify, filter the `import "C"` special
case, handle the zero- and multiple-declaration cases, group, resolve the
scheme, then run the group-count, mixed, order and sortedness checks,
returning the first failure. -/
def verify (opts : VerifyOptions) (parsedDecls : List importDeclaration) :
    Except String Unit :=
  let importDecls := filterImportC (parseClassify opts parsedDecls)
  if importDecls.length = 0 then .ok ()
  else if 1 < importDecls.length then
    .error ("Multiple import declarations not permitted, "
      ++ toString importDecls.length ++ " observed")
  else
    let importInfoGroups := groupImports importDecls
    match getVerificationScheme opts with
    | .error e => .error e
    | .ok scheme =>
      if scheme.getMaxNumGroups < importInfoGroups.length then
        .error ("Expected no more than 3 groups, got "
          ++ toString importInfoGroups.length)
      else if scheme.getMixedGroupsAllowed = false then
        match verifyNonMixedGroups importInfoGroups with
        | .error e => .error e
        | .ok _ =>
          match verifyGroupOrder importInfoGroups
              scheme.getAllowedImportOrders with
          | .error e => .error e
          | .ok _ => verifyImportInfoGroupsOrder importInfoGroups
      else verifyImportInfoGroupsOrder importInfoGroups

/-! ## Helper lemmas about `groupLoop` -/

theorem groupLoop_flatten :
    ∀ (infos : List importInfo) (lastLine : Nat) (group : List importInfo),
      (groupLoop lastLine group infos).flatten = group ++ infos := by
  intro infos
  induction infos with
  | nil =>
    intro l g
    simp only [groupLoop]
    split
    · simp_all [List.isEmpty_iff]
    · simp
  | cons info rest ih =>
    intro l g
    simp only [groupLoop]
    split
    · simp [ih]
    · simp [ih]

theorem groupLoop_ne_nil :
    ∀ (infos : List importInfo) (lastLine : Nat) (group : List importInfo),
      (0 < lastLine → group ≠ []) →
      ∀ x ∈ groupLoop lastLine group infos, x ≠ [] := by
  intro infos
  induction infos with
  | nil =>
    intro l g _ x hx
    simp only [groupLoop] at hx
    split at hx
    · simp at hx
    · next h =>
      simp only [List.mem_singleton] at hx
      subst hx
      simpa [List.isEmpty_iff] using h
  | cons info rest ih =>
    intro l g hg x hx
    simp only [groupLoop] at hx
    split at hx
    · next h =>
      rcases List.mem_cons.mp hx with rfl | hx'
      · exact hg h.1
      · exact ih _ _ (fun _ => List.cons_ne_nil _ _) x hx'
    · exact ih _ _ (fun _ => by simp) x hx

theorem groupLoop_head_ext :
    ∀ (infos : List importInfo) (lastLine : Nat) (hd : importInfo)
      (group : List importInfo),
      ∃ t gs, groupLoop lastLine (hd :: group) infos = ((hd :: group) ++ t) :: gs := by
  intro infos
  induction infos with
  | nil =>
    intro l hd g
    refine ⟨[], [], ?_⟩
    simp [groupLoop]
  | cons info rest ih =>
    intro l hd g
    simp only [groupLoop]
    split
    · exact ⟨[], groupLoop info.lineNumEnd [info] rest, by simp⟩
    · obtain ⟨t, gs, h⟩ := ih info.lineNumEnd hd (g ++ [info])
      refine ⟨[info] ++ t, gs, ?_⟩
      simp only [List.cons_append] at h ⊢
      rw [h]
      simp

theorem groupLoop_chain :
    ∀ (infos : List importInfo) (lastLine : Nat) (group : List importInfo),
      (∀ i ∈ infos, 0 < i.lineNumEnd) →
      groupInv lastLine group →
      List.Chain' lineAdjacent group →
      ∀ x ∈ groupLoop lastLine group infos, List.Chain' lineAdjacent x := by
  intro infos
  induction infos with
  | nil =>
    intro l g _ _ hchain x hx
    simp only [groupLoop] at hx
    split at hx
    · simp at hx
    · simp only [List.mem_singleton] at hx
      subst hx
      exact hchain
  | cons info rest ih =>
    intro l g hpos hinv hchain x hx
    have hpos0 : 0 < info.lineNumEnd := hpos info (List.mem_cons_self _ _)
    have hposr : ∀ i ∈ rest, 0 < i.lineNumEnd :=
      fun i hi => hpos i (List.mem_cons_of_mem _ hi)
    simp only [groupLoop] at hx
    split at hx
    · next h =>
      rcases List.mem_cons.mp hx with rfl | hx'
      · exact hchain
      · refine ih _ _ hposr ⟨?_, ?_⟩ (List.chain'_singleton _) x hx'
        · intro h0
          exact absurd (h0 ▸ hpos0) (lt_irrefl 0)
        · exact fun _ => ⟨info, rfl, rfl⟩
    · next h =>
      refine ih _ _ hposr ⟨?_, ?_⟩ ?_ x hx
      · intro h0
        exact absurd (h0 ▸ hpos0) (lt_irrefl 0)
      · intro _
        exact ⟨info, List.getLast?_concat _, rfl⟩
      · rw [List.chain'_append]
        refine ⟨hchain, List.chain'_singleton _, ?_⟩
        intro a ha b hb
        simp only [List.head?_cons, Option.mem_def, Option.some.injEq] at hb
        subst hb
        rcases Nat.eq_zero_or_pos l with h0 | hl
        · have : g = [] := hinv.1 h0
          simp [this] at ha
        · have hstart : info.lineNumStart = l + 1 := by
            by_contra hne
            exact h ⟨hl, hne⟩
          obtain ⟨a', ha', hend⟩ := hinv.2 hl
          have : a = a' := by
            rw [Option.mem_def] at ha
            rw [ha] at ha'
            exact (Option.some.injEq _ _).mp ha'
          subst this
          show info.lineNumStart = a.lineNumEnd + 1
          rw [hstart, hend]

theorem groupLoop_gaps :
    ∀ (infos : List importInfo) (lastLine : Nat) (group : List importInfo),
      (0 < lastLine → ∃ a, group.getLast? = some a ∧ a.lineNumEnd = lastLine) →
      List.Chain' (fun x y => groupGap x y) (groupLoop lastLine group infos) := by
  intro infos
  induction infos with
  | nil =>
    intro l g _
    simp only [groupLoop]
    split
    · exact List.chain'_nil
    · exact List.chain'_singleton _
  | cons info rest ih =>
    intro l g hinv
    simp only [groupLoop]
    split
    · next h =>
      rw [List.chain'_cons']
      constructor
      · intro y hy
        obtain ⟨t, gs, hext⟩ := groupLoop_head_ext rest info.lineNumEnd info []
        rw [hext] at hy
        simp only [List.nil_append, List.head?_cons, Option.mem_def,
          Option.some.injEq] at hy
        subst hy
        intro a b ha hb heq
        simp only [List.cons_append, List.nil_append, List.head?_cons,
          Option.some.injEq] at hb
        subst hb
        obtain ⟨a', ha', hend⟩ := hinv h.1
        rw [ha'] at ha
        have : a = a' := (Option.some.injEq _ _).mp ha.symm
        subst this
        exact h.2 (heq.trans (by rw [hend]))
      · exact ih _ _ fun _ => ⟨info, rfl, rfl⟩
    · exact ih _ _ fun _ => ⟨info, List.getLast?_concat _, rfl⟩

/-- Claim C6: grouping walks the records of the single declaration in
source order and starts a new group exactly when the current record's
start line (which, per `parseImports`, is the first line of an attached
leading comment when present) is not exactly the previous record's end
line + 1: the concatenation of the emitted groups equals the input record
sequence, records kept adjacent inside a group are exactly the
line-adjacent ones, and consecutive emitted groups are separated by a
line gap.  The hypothesis states that the parse collaborator produces
1-based (positive) end lines. -/
theorem groupImports_splits_at_line_gaps (d : importDeclaration)
    (h : ∀ i ∈ d.importInfos, 0 < i.lineNumEnd) :
    ((groupImports [d]).map importInfoGroup.importInfos).flatten = d.importInfos
    ∧ (∀ g ∈ groupImports [d], List.Chain' lineAdjacent g.importInfos)
    ∧ List.Chain' (fun g₁ g₂ => groupGap g₁.importInfos g₂.importInfos)
        (groupImports [d]) := by
  have hg : groupImports [d]
      = (groupLoop 0 [] d.importInfos).map importInfoGroup.mk := by
    simp [groupImports]
  refine ⟨?_, ?_, ?_⟩
  · rw [hg, List.map_map]
    have hid : importInfoGroup.importInfos ∘ importInfoGroup.mk
        = fun x => x := rfl
    rw [hid, List.map_id']
    simpa using groupLoop_flatten d.importInfos 0 []
  · intro g hgm
    rw [hg] at hgm
    obtain ⟨x, hx, rfl⟩ := List.mem_map.mp hgm
    exact groupLoop_chain d.importInfos 0 [] h
      ⟨fun _ => rfl, fun h0 => absurd h0 (lt_irrefl 0)⟩ List.chain'_nil x hx
  · rw [hg]
    rw [List.chain'_map]
    exact groupLoop_gaps d.importInfos 0 [] fun h0 => absurd h0 (lt_irrefl 0)

/-- Witness for C6 at a concrete declaration: records on lines 3, 4 and 6
produce the groups [3,4] and [6]. -/
theorem groupImports_splits_at_line_gaps_witness :
    (∀ i ∈ (importDeclaration.mk 2 7
        [importInfo.mk 3 3 3 "fmt" importTypeUnknown,
         importInfo.mk 4 4 4 "os" importTypeUnknown,
         importInfo.mk 6 6 6 "a.b/x" importTypeUnknown]).importInfos,
      0 < i.lineNumEnd)
    ∧ (((groupImports [importDeclaration.mk 2 7
        [importInfo.mk 3 3 3 "fmt" importTypeUnknown,
         importInfo.mk 4 4 4 "os" importTypeUnknown,
         importInfo.mk 6 6 6 "a.b/x" importTypeUnknown]]).map
          importInfoGroup.importInfos).flatten
        = (importDeclaration.mk 2 7
        [importInfo.mk 3 3 3 "fmt" importTypeUnknown,
         importInfo.mk 4 4 4 "os" importTypeUnknown,
         importInfo.mk 6 6 6 "a.b/x" importTypeUnknown]).importInfos
      ∧ (∀ g ∈ groupImports [importDeclaration.mk 2 7
        [importInfo.mk 3 3 3 "fmt" importTypeUnknown,
         importInfo.mk 4 4 4 "os" importTypeUnknown,
         importInfo.mk 6 6 6 "a.b/x" importTypeUnknown]],
          List.Chain' lineAdjacent g.importInfos)
      ∧ List.Chain' (fun g₁ g₂ => groupGap g₁.importInfos g₂.importInfos)
          (groupImports [importDeclaration.mk 2 7
        [importInfo.mk 3 3 3 "fmt" importTypeUnknown,
         importInfo.mk 4 4 4 "os" importTypeUnknown,
         importInfo.mk 6 6 6 "a.b/x" importTypeUnknown]])) :=
  ⟨by decide, groupImports_splits_at_line_gaps _ (by decide)⟩

/-- Claim C10: every group emitted by `groupImports` contains at least one
record, so the `importInfos[0]` accesses in `verifyNonMixedGroups` and
`verifyGroupOrder` (modelled by `headD dummyImportInfo`) read an actual
first record, never the out-of-bounds dummy. -/
theorem groupImports_groups_nonempty :
    ∀ (decls : List importDeclaration), ∀ g ∈ groupImports decls,
      ∃ hd tl, g.importInfos = hd :: tl
        ∧ g.importInfos.headD dummyImportInfo = hd := by
  intro decls g hg
  simp only [groupImports, List.mem_flatten] at hg
  obtain ⟨l, hl, hgl⟩ := hg
  obtain ⟨d, _, rfl⟩ := List.mem_map.mp hl
  obtain ⟨x, hx, rfl⟩ := List.mem_map.mp hgl
  have hne := groupLoop_ne_nil d.importInfos 0 []
    (fun h0 => absurd h0 (lt_irrefl 0)) x hx
  obtain ⟨hd', tl, rfl⟩ := List.exists_cons_of_ne_nil hne
  exact ⟨hd', tl, rfl, rfl⟩

/-- Witness for C10 at a concrete input: the single group of a one-record
declaration has that record as its first element. -/
theorem groupImports_groups_nonempty_witness :
    importInfoGroup.mk [importInfo.mk 3 3 3 "fmt" importTypeUnknown]
      ∈ groupImports [importDeclaration.mk 2 4
          [importInfo.mk 3 3 3 "fmt" importTypeUnknown]]
    ∧ ∃ hd tl,
        (importInfoGroup.mk
          [importInfo.mk 3 3 3 "fmt" importTypeUnknown]).importInfos
          = hd :: tl
        ∧ (importInfoGroup.mk
          [importInfo.mk 3 3 3 "fmt" importTypeUnknown]).importInfos.headD
            dummyImportInfo = hd :=
  ⟨by decide,
    groupImports_groups_nonempty
      [importDeclaration.mk 2 4 [importInfo.mk 3 3 3 "fmt" importTypeUnknown]]
      (importInfoGroup.mk [importInfo.mk 3 3 3 "fmt" importTypeUnknown])
      (by decide)⟩

/-! ## Helper lemmas about strings and the sortedness check -/

theorem string_length_eq_zero_iff (a : String) : a.length = 0 ↔ a = "" := by
  constructor
  · intro h
    apply String.ext
    have h2 : a.data.length = 0 := h
    exact List.length_eq_zero.mp h2
  · intro h
    subst h
    rfl

theorem string_append_eq_empty_iff (a b : String) :
    a ++ b = "" ↔ a = "" ∧ b = "" := by
  rw [← string_length_eq_zero_iff, ← string_length_eq_zero_iff,
    ← string_length_eq_zero_iff, String.length_append]
  omega

theorem groupEntry_length_pos (idx : Nat) (paths : List String) :
    0 < (groupEntry idx paths).length := by
  rw [groupEntry]
  simp only [String.length_append]
  have : (0:Nat) < ("\n- Import group " : String).length := by decide
  omega

theorem groupEntry_ne_empty (idx : Nat) (paths : List String) :
    groupEntry idx paths ≠ "" := by
  intro h
  have := groupEntry_length_pos idx paths
  rw [h] at this
  exact absurd this (by decide)

theorem buildErrorString_empty_iff :
    ∀ (gs : List importInfoGroup) (idx : Nat),
      buildErrorString idx gs = ""
        ↔ ∀ g ∈ gs, stringsAreSorted (groupPaths g) = true := by
  intro gs
  induction gs with
  | nil =>
    intro idx
    simp [buildErrorString]
  | cons g rest ih =>
    intro idx
    simp only [buildErrorString, List.mem_cons]
    by_cases hs : stringsAreSorted (groupPaths g) = true
    · rw [if_pos hs, String.empty_append, ih (idx + 1)]
      constructor
      · intro h x hx
        rcases hx with rfl | hx'
        · exact hs
        · exact h x hx'
      · intro h x hx
        exact h x (Or.inr hx)
    · rw [if_neg hs, string_append_eq_empty_iff]
      constructor
      · intro h
        exact absurd h.1 (groupEntry_ne_empty _ _)
      · intro h
        exact absurd (h g (Or.inl rfl)) hs

theorem charListLt_iff_lex :
    ∀ as bs : List Char, charListLt as bs = true ↔ List.Lex (· < ·) as bs := by
  intro as
  induction as with
  | nil =>
    intro bs
    cases bs with
    | nil =>
      simp only [charListLt, Bool.false_eq_true, false_iff]
      intro h
      cases h
    | cons b bs' =>
      simp only [charListLt, true_iff]
      exact List.Lex.nil
  | cons a as' ih =>
    intro bs
    cases bs with
    | nil =>
      simp only [charListLt, Bool.false_eq_true, false_iff]
      intro h
      cases h
    | cons b bs' =>
      simp only [charListLt]
      by_cases h1 : a < b
      · simp only [if_pos h1, true_iff]
        exact List.Lex.rel h1
      · by_cases h2 : b < a
        · simp only [if_neg h1, if_pos h2, Bool.false_eq_true, false_iff]
          intro h
          cases h with
          | cons h' => exact absurd h2 (lt_irrefl _)
          | rel h' => exact h1 h'
        · have hab : a = b := le_antisymm (le_of_not_lt h2) (le_of_not_lt h1)
          subst hab
          simp only [if_neg h1, ih bs']
          constructor
          · intro h
            exact List.Lex.cons h
          · intro h
            cases h with
            | cons h' => exact h'
            | rel h' => exact absurd h' h1

theorem string_lt_iff (a b : String) :
    charListLt a.data b.data = true ↔ a < b :=
  (charListLt_iff_lex a.data b.data).trans String.lt_iff_toList_lt.symm

theorem charListLt_eq_false_iff (a b : String) :
    charListLt b.data a.data = false ↔ a ≤ b := by
  rw [← not_lt, ← string_lt_iff b a]
  simp

theorem stringLeb_iff (a b : String) : stringLeb a b = true ↔ a ≤ b := by
  rw [stringLeb, Bool.not_eq_true']
  exact charListLt_eq_false_iff a b

theorem orderedInsertGo_eq (a : String) :
    ∀ l, orderedInsertGo a l = List.orderedInsert (· ≤ ·) a l := by
  intro l
  induction l with
  | nil => rfl
  | cons b l ih =>
    simp only [orderedInsertGo, List.orderedInsert]
    by_cases h : a ≤ b
    · rw [if_pos ((stringLeb_iff a b).mpr h), if_pos h]
    · rw [if_neg (fun hh => h ((stringLeb_iff a b).mp hh)), if_neg h, ih]

theorem sortStrings_eq (l : List String) :
    sortStrings l = List.insertionSort (· ≤ ·) l := by
  induction l with
  | nil => rfl
  | cons b l ih =>
    simp only [sortStrings, List.insertionSort]
    rw [ih, orderedInsertGo_eq]

theorem stringsAreSorted_iff_chain :
    ∀ l : List String, stringsAreSorted l = true ↔ l.Chain' (· ≤ ·) := by
  intro l
  induction l with
  | nil => simp [stringsAreSorted]
  | cons a t ih =>
    cases t with
    | nil => simp [stringsAreSorted]
    | cons b t' =>
      rw [List.chain'_cons, ← ih]
      simp only [stringsAreSorted, Bool.and_eq_true, Bool.not_eq_true']
      rw [charListLt_eq_false_iff]

theorem buildErrorString_infix :
    ∀ (gs : List importInfoGroup) (idx i : Nat) (h : i < gs.length),
      stringsAreSorted (groupPaths (gs.get ⟨i, h⟩)) = false →
      ∃ pre post, buildErrorString idx gs
        = pre ++ groupEntry (idx + i) (groupPaths (gs.get ⟨i, h⟩)) ++ post := by
  intro gs
  induction gs with
  | nil =>
    intro idx i h
    exact absurd h (by simp)
  | cons g rest ih =>
    intro idx i h hns
    cases i with
    | zero =>
      simp only [List.get] at hns ⊢
      refine ⟨"", buildErrorString (idx + 1) rest, ?_⟩
      simp only [buildErrorString, Nat.add_zero]
      rw [if_neg (by rw [hns]; exact Bool.false_ne_true), String.empty_append]
    | succ i' =>
      simp only [List.get, List.length_cons] at hns h ⊢
      obtain ⟨pre', post', hrec⟩ :=
        ih (idx + 1) i' (Nat.lt_of_succ_lt_succ h) hns
      refine ⟨(if stringsAreSorted (groupPaths g) then ""
        else groupEntry idx (groupPaths g)) ++ pre', post', ?_⟩
      have hidx : idx + 1 + i' = idx + (i' + 1) := by omega
      rw [hidx] at hrec
      simp only [buildErrorString]
      rw [hrec]
      simp [String.append_assoc]

/-- Claim C4 (amended): within every group the import paths must be in
non-decreasing — not strict — byte-wise lexicographic order for the
sortedness check to succeed; `sort.StringsAreSorted` tolerates equal
adjacent paths. -/
theorem verifyImportInfoGroupsOrder_ok_iff (groups : List importInfoGroup) :
    verifyImportInfoGroupsOrder groups = .ok ()
      ↔ ∀ g ∈ groups, (groupPaths g).Chain' (· ≤ ·) := by
  have hkey : buildErrorString 0 groups = ""
      ↔ ∀ g ∈ groups, (groupPaths g).Chain' (· ≤ ·) := by
    rw [buildErrorString_empty_iff]
    constructor
    · intro h g hg
      exact (stringsAreSorted_iff_chain _).mp (h g hg)
    · intro h g hg
      exact (stringsAreSorted_iff_chain _).mpr (h g hg)
  simp only [verifyImportInfoGroupsOrder]
  split
  · next h =>
    constructor
    · intro he
      exact absurd he (by simp)
    · intro hall
      have h0 : (buildErrorString 0 groups).length = 0 := by
        rw [(string_length_eq_zero_iff _).mpr (hkey.mpr hall)]
      exact absurd h0 h
  · next h =>
    push_neg at h
    have hempty : buildErrorString 0 groups = "" :=
      (string_length_eq_zero_iff _).mp h
    simp only [true_iff]
    exact hkey.mp hempty

/-- Counterexample to claim C4 as stated: a group whose two adjacent paths
are equal ("fmt" twice) passes the sortedness check, and a file whose
single import group is exactly that verifies successfully under the
stdLocalThirdParty scheme — the required order is non-strict, not strict. -/
theorem equal_adjacent_paths_pass :
    stringsAreSorted ["fmt", "fmt"] = true
    ∧ verifyImportInfoGroupsOrder
        [importInfoGroup.mk
          [importInfo.mk 3 3 3 "fmt" importTypeStd,
           importInfo.mk 4 4 4 "fmt" importTypeStd]] = .ok ()
    ∧ verify { Scheme := .StdLocalThirdParty, LocalPrefix := "" }
        [importDeclaration.mk 2 5
          [importInfo.mk 3 3 3 "fmt" importTypeUnknown,
           importInfo.mk 4 4 4 "fmt" importTypeUnknown]] = .ok () :=
  ⟨by decide, by rfl, by rfl⟩

/-- Witness for the amended C4 at a concrete input: a strictly ascending
group satisfies the non-decreasing condition and passes. -/
theorem verifyImportInfoGroupsOrder_ok_iff_witness :
    verifyImportInfoGroupsOrder
      [importInfoGroup.mk
        [importInfo.mk 3 3 3 "fmt" importTypeStd,
         importInfo.mk 4 4 4 "os" importTypeStd]] = .ok () :=
  (verifyImportInfoGroupsOrder_ok_iff _).mpr (by
    intro g hg
    simp only [List.mem_singleton] at hg
    subst hg
    simp only [groupPaths, List.map_cons, List.map_nil]
    rw [List.chain'_cons]
    exact ⟨(stringLeb_iff _ _).mp (by decide), List.chain'_singleton _⟩)

/-- Claim C7: the per-group sortedness check is exhaustive — if every
group is sorted it succeeds; if group `i` is unsorted (for any `i`, not
only the first) the check fails with the accumulated message, and that
message contains group `i`'s entry, which names the group index and shows
the observed path order followed by the expected sorted order; sorted
groups contribute no entry (the message is built only from unsorted
groups' entries).  The expected order shown is a sorted permutation of
the observed paths. -/
theorem verifyImportInfoGroupsOrder_exhaustive (groups : List importInfoGroup) :
    ((∀ g ∈ groups, stringsAreSorted (groupPaths g) = true) →
        verifyImportInfoGroupsOrder groups = .ok ())
    ∧ (∀ i (h : i < groups.length),
        stringsAreSorted (groupPaths (groups.get ⟨i, h⟩)) = false →
          verifyImportInfoGroupsOrder groups
              = .error (buildErrorString 0 groups)
          ∧ ∃ pre post, buildErrorString 0 groups
              = pre ++ groupEntry i (groupPaths (groups.get ⟨i, h⟩)) ++ post)
    ∧ (∀ paths : List String, (sortStrings paths).Perm paths
        ∧ (sortStrings paths).Chain' (· ≤ ·)) := by
  refine ⟨?_, ?_, ?_⟩
  · intro hall
    have hempty : buildErrorString 0 groups = "" :=
      (buildErrorString_empty_iff groups 0).mpr hall
    simp only [verifyImportInfoGroupsOrder, hempty]
    simp
  · intro i h hns
    obtain ⟨pre, post, hdecomp⟩ := buildErrorString_infix groups 0 i h hns
    rw [Nat.zero_add] at hdecomp
    have hne : (buildErrorString 0 groups).length ≠ 0 := by
      intro h0
      have : buildErrorString 0 groups = "" :=
        (string_length_eq_zero_iff _).mp h0
      rw [this] at hdecomp
      have hlen : (0:Nat) = (pre ++ groupEntry i (groupPaths (groups.get ⟨i, h⟩)) ++ post).length := by
        rw [← hdecomp]
        rfl
      rw [String.length_append, String.length_append] at hlen
      have := groupEntry_length_pos i (groupPaths (groups.get ⟨i, h⟩))
      omega
    constructor
    · simp only [verifyImportInfoGroupsOrder]
      rw [if_pos hne]
    · exact ⟨pre, post, hdecomp⟩
  · intro paths
    rw [sortStrings_eq]
    constructor
    · exact List.perm_insertionSort _ _
    · rw [List.chain'_iff_pairwise]
      exact List.sorted_insertionSort _ _

/-- Witness for C7 at a concrete input: with group 0 sorted and groups 1
and 2 unsorted, the check fails and the combined message contains the
entries of both unsorted groups. -/
theorem verifyImportInfoGroupsOrder_exhaustive_witness :
    (stringsAreSorted (groupPaths (importInfoGroup.mk
        [importInfo.mk 4 4 4 "os" importTypeStd,
         importInfo.mk 5 5 5 "fmt" importTypeStd])) = false)
    ∧ verifyImportInfoGroupsOrder
        [importInfoGroup.mk [importInfo.mk 3 3 3 "a" importTypeStd],
         importInfoGroup.mk
          [importInfo.mk 4 4 4 "os" importTypeStd,
           importInfo.mk 5 5 5 "fmt" importTypeStd],
         importInfoGroup.mk
          [importInfo.mk 7 7 7 "z.c/b" importTypeLocalOrThirdParty,
           importInfo.mk 8 8 8 "a.c/a" importTypeLocalOrThirdParty]]
        = .error (buildErrorString 0
        [importInfoGroup.mk [importInfo.mk 3 3 3 "a" importTypeStd],
         importInfoGroup.mk
          [importInfo.mk 4 4 4 "os" importTypeStd,
           importInfo.mk 5 5 5 "fmt" importTypeStd],
         importInfoGroup.mk
          [importInfo.mk 7 7 7 "z.c/b" importTypeLocalOrThirdParty,
           importInfo.mk 8 8 8 "a.c/a" importTypeLocalOrThirdParty]])
    ∧ (∃ pre post, buildErrorString 0
        [importInfoGroup.mk [importInfo.mk 3 3 3 "a" importTypeStd],
         importInfoGroup.mk
          [importInfo.mk 4 4 4 "os" importTypeStd,
           importInfo.mk 5 5 5 "fmt" importTypeStd],
         importInfoGroup.mk
          [importInfo.mk 7 7 7 "z.c/b" importTypeLocalOrThirdParty,
           importInfo.mk 8 8 8 "a.c/a" importTypeLocalOrThirdParty]]
        = pre ++ groupEntry 1 ["os", "fmt"] ++ post)
    ∧ (∃ pre post, buildErrorString 0
        [importInfoGroup.mk [importInfo.mk 3 3 3 "a" importTypeStd],
         importInfoGroup.mk
          [importInfo.mk 4 4 4 "os" importTypeStd,
           importInfo.mk 5 5 5 "fmt" importTypeStd],
         importInfoGroup.mk
          [importInfo.mk 7 7 7 "z.c/b" importTypeLocalOrThirdParty,
           importInfo.mk 8 8 8 "a.c/a" importTypeLocalOrThirdParty]]
        = pre ++ groupEntry 2 ["z.c/b", "a.c/a"] ++ post) := by
  refine ⟨by decide, ?_, ?_, ?_⟩
  · exact (((verifyImportInfoGroupsOrder_exhaustive _).2.1 1 (by decide))
      (by decide)).1
  · exact (((verifyImportInfoGroupsOrder_exhaustive _).2.1 1 (by decide))
      (by decide)).2
  · exact (((verifyImportInfoGroupsOrder_exhaustive _).2.1 2 (by decide))
      (by decide)).2

/-! ## The classifier, the pseudo-import exemption and the zero-declaration
shortcut -/

theorem declIsOnlyImportC_classify (opts : VerifyOptions)
    (d : importDeclaration) :
    declIsOnlyImportC
      { d with importInfos := d.importInfos.map fun i =>
          { i with classifiedType := classifyImportType opts.LocalPrefix i.path } }
      = declIsOnlyImportC d := by
  simp only [declIsOnlyImportC, List.any_map]
  rfl

theorem filterImportC_parseClassify (opts : VerifyOptions)
    (decls : List importDeclaration) :
    filterImportC (parseClassify opts decls)
      = parseClassify opts (filterImportC decls) := by
  simp only [parseClassify, filterImportC, List.filter_map]
  congr 1
  apply List.filter_congr
  intro d _
  simp only [Function.comp]
  rw [declIsOnlyImportC_classify]

/-- Claim C5: `classifyImportType` is pure and satisfies: a path with no
embedded dot is `std` whatever the local prefix; a path containing a dot
is, when the local prefix is set (non-empty), `local` if the path starts
with the prefix and `thirdParty` otherwise. -/
theorem classifyImportType_spec (localPrefix path : String) :
    (stringContainsChar path '.' = false →
      classifyImportType localPrefix path = importTypeStd)
    ∧ (stringContainsChar path '.' = true → localPrefix ≠ "" →
        (stringHasPrefix path localPrefix = true →
          classifyImportType localPrefix path = importTypeLocal)
        ∧ (stringHasPrefix path localPrefix = false →
          classifyImportType localPrefix path = importTypeThirdParty)) := by
  refine ⟨?_, ?_⟩
  · intro h
    simp [classifyImportType, h]
  · intro hdot hpre
    have hlen : ¬localPrefix.length = 0 :=
      fun h0 => hpre ((string_length_eq_zero_iff _).mp h0)
    refine ⟨?_, ?_⟩ <;> intro h <;> simp [classifyImportType, hdot, hlen, h]

/-- Witness for C5 at concrete paths: "fmt" is std, a prefixed dotted path
is local, another dotted path is thirdParty. -/
theorem classifyImportType_spec_witness :
    (stringContainsChar "fmt" '.' = false
      ∧ classifyImportType "a.b/p" "fmt" = importTypeStd)
    ∧ (stringContainsChar "a.b/p/q" '.' = true
      ∧ stringHasPrefix "a.b/p/q" "a.b/p" = true
      ∧ classifyImportType "a.b/p" "a.b/p/q" = importTypeLocal)
    ∧ (stringContainsChar "c.d/r" '.' = true
      ∧ stringHasPrefix "c.d/r" "a.b/p" = false
      ∧ classifyImportType "a.b/p" "c.d/r" = importTypeThirdParty) :=
  ⟨⟨by decide, (classifyImportType_spec "a.b/p" "fmt").1 (by decide)⟩,
   ⟨by decide, by decide,
    ((classifyImportType_spec "a.b/p" "a.b/p/q").2 (by decide)
      (by decide)).1 (by decide)⟩,
   ⟨by decide, by decide,
    ((classifyImportType_spec "a.b/p" "c.d/r").2 (by decide)
      (by decide)).2 (by decide)⟩⟩

/-- Claim C9: a file with zero import declarations (after excluding the
pseudo-import special case) verifies successfully under any scheme
selector — including selectors the registry does not support — because
the zero-declaration success is decided before scheme resolution. -/
theorem verify_zero_decls_ok (opts : VerifyOptions)
    (decls : List importDeclaration)
    (h : filterImportC (parseClassify opts decls) = []) :
    verify opts decls = .ok () := by
  simp [verify, h]

/-- Witness for C9: the empty file verifies under the unsupported `Single`
selector, whose scheme resolution would fail. -/
theorem verify_zero_decls_ok_witness :
    filterImportC (parseClassify
      { Scheme := .Single, LocalPrefix := "" } []) = []
    ∧ verify { Scheme := .Single, LocalPrefix := "" } [] = .ok ()
    ∧ getVerificationScheme { Scheme := .Single, LocalPrefix := "" }
        = .error "Unsupported verification scheme" :=
  ⟨rfl, verify_zero_decls_ok _ [] rfl, rfl⟩

/-- Claim C8: a declaration consisting solely of `import "C"` records is
excluded entirely (a file containing only it verifies successfully); a
declaration mixing the pseudo-import with ordinary imports is kept by the
filter — checked normally — and counts toward the multiple-declaration
limit. -/
theorem importC_exemption (opts : VerifyOptions) :
    (∀ d : importDeclaration, d.importInfos ≠ [] →
        (∀ i ∈ d.importInfos, i.path = "C") →
        filterImportC [d] = [] ∧ verify opts [d] = .ok ())
    ∧ (∀ (d : importDeclaration) (rest : List importDeclaration),
        (∃ i ∈ d.importInfos, i.path = "C") →
        (∃ i ∈ d.importInfos, i.path ≠ "C") →
        filterImportC (d :: rest) = d :: filterImportC rest)
    ∧ (∀ d₁ d₂ : importDeclaration,
        (∃ i ∈ d₁.importInfos, i.path = "C") →
        (∃ i ∈ d₁.importInfos, i.path ≠ "C") →
        (∃ i ∈ d₂.importInfos, i.path = "C") →
        (∃ i ∈ d₂.importInfos, i.path ≠ "C") →
        verify opts [d₁, d₂]
          = .error "Multiple import declarations not permitted, 2 observed") := by
  have honly : ∀ d : importDeclaration, d.importInfos ≠ [] →
      (∀ i ∈ d.importInfos, i.path = "C") → declIsOnlyImportC d = true := by
    intro d hne hall
    obtain ⟨x, t, hx⟩ := List.exists_cons_of_ne_nil hne
    simp only [declIsOnlyImportC, Bool.and_eq_true, Bool.not_eq_true',
      List.any_eq_true, List.any_eq_false]
    constructor
    · refine ⟨x, by rw [hx]; exact List.mem_cons_self _ _, ?_⟩
      have := hall x (by rw [hx]; exact List.mem_cons_self _ _)
      simp [this]
    · intro i hi
      have := hall i hi
      simp [this]
  have hmixed : ∀ d : importDeclaration,
      (∃ i ∈ d.importInfos, i.path ≠ "C") → declIsOnlyImportC d = false := by
    intro d hex
    obtain ⟨i, hi, hip⟩ := hex
    simp only [declIsOnlyImportC, Bool.and_eq_false_iff, Bool.not_eq_false',
      List.any_eq_true]
    exact Or.inr ⟨i, hi, by simp [hip]⟩
  refine ⟨?_, ?_, ?_⟩
  · intro d hne hall
    have hf : filterImportC [d] = [] := by
      simp [filterImportC, honly d hne hall]
    refine ⟨hf, ?_⟩
    have : filterImportC (parseClassify opts [d]) = [] := by
      rw [filterImportC_parseClassify, hf]
      rfl
    simp [verify, this]
  · intro d rest _ hex
    simp [filterImportC, hmixed d hex]
  · intro d₁ d₂ _ hex₁ _ hex₂
    have hkeep : filterImportC [d₁, d₂] = [d₁, d₂] := by
      simp [filterImportC, hmixed d₁ hex₁, hmixed d₂ hex₂]
    have hlen : (filterImportC (parseClassify opts [d₁, d₂])).length = 2 := by
      rw [filterImportC_parseClassify, hkeep]
      simp [parseClassify]
    simp only [verify, hlen]
    norm_num
    rfl

/-- Witness for C8 at concrete declarations: a sole `import "C"`
declaration is dropped and its file verifies; a mixed declaration is kept
and two mixed declarations trip the multiple-declaration error. -/
theorem importC_exemption_witness :
    (filterImportC [importDeclaration.mk 12 12
        [importInfo.mk 12 12 12 "C" importTypeUnknown]] = []
      ∧ verify { Scheme := .StdLocalThirdParty, LocalPrefix := "" }
        [importDeclaration.mk 12 12
          [importInfo.mk 12 12 12 "C" importTypeUnknown]] = .ok ())
    ∧ filterImportC [importDeclaration.mk 2 4
        [importInfo.mk 3 3 3 "C" importTypeUnknown,
         importInfo.mk 4 4 4 "fmt" importTypeUnknown]]
      = importDeclaration.mk 2 4
          [importInfo.mk 3 3 3 "C" importTypeUnknown,
           importInfo.mk 4 4 4 "fmt" importTypeUnknown] :: filterImportC []
    ∧ verify { Scheme := .StdLocalThirdParty, LocalPrefix := "" }
        [importDeclaration.mk 2 4
          [importInfo.mk 3 3 3 "C" importTypeUnknown,
           importInfo.mk 4 4 4 "fmt" importTypeUnknown],
         importDeclaration.mk 6 8
          [importInfo.mk 7 7 7 "C" importTypeUnknown,
           importInfo.mk 8 8 8 "os" importTypeUnknown]]
      = .error "Multiple import declarations not permitted, 2 observed" :=
  ⟨(importC_exemption { Scheme := .StdLocalThirdParty, LocalPrefix := "" }).1
      (importDeclaration.mk 12 12
        [importInfo.mk 12 12 12 "C" importTypeUnknown])
      (by decide) (by decide),
   (importC_exemption { Scheme := .StdLocalThirdParty, LocalPrefix := "" }).2.1
      (importDeclaration.mk 2 4
        [importInfo.mk 3 3 3 "C" importTypeUnknown,
         importInfo.mk 4 4 4 "fmt" importTypeUnknown]) []
      (by decide) (by decide),
   (importC_exemption { Scheme := .StdLocalThirdParty, LocalPrefix := "" }).2.2
      (importDeclaration.mk 2 4
        [importInfo.mk 3 3 3 "C" importTypeUnknown,
         importInfo.mk 4 4 4 "fmt" importTypeUnknown])
      (importDeclaration.mk 6 8
        [importInfo.mk 7 7 7 "C" importTypeUnknown,
         importInfo.mk 8 8 8 "os" importTypeUnknown])
      (by decide) (by decide) (by decide) (by decide)⟩

/-! ## The scheme orderings on degenerate inputs (claims C1, C2, C3) -/

/-- Counterexample to claim C1 as stated: the stdLocalThirdParty scheme's
allowed orderings do not contain the empty sequence, and a file whose
single non-exempt import declaration contains zero import records fails
the group-order check with the empty observed order instead of verifying
successfully. -/
theorem empty_order_not_allowed :
    [] ∉ stdLocalThirdPartyScheme.getAllowedImportOrders
    ∧ verify { Scheme := .StdLocalThirdParty, LocalPrefix := "" }
        [importDeclaration.mk 2 2 []]
      = .error "Import groups are not in the proper order: []" :=
  ⟨by decide, by rfl⟩

/-- Claim C1 (amended): the stdLocalThirdParty scheme — whose source is
present (`src/unnamed/part_000`) — allows only the seven non-empty
orderings, so a file whose single non-exempt import declaration contains
zero import records (producing zero groups) fails its group-order check
with the empty observed order; the stdThirdPartyLocal scheme, whose
absent source is modelled from the spec's subset rule and does contain
the empty ordering, verifies such a file successfully, as the claim
states. -/
theorem zero_record_decl_fails (opts : VerifyOptions) (d : importDeclaration)
    (hinfos : d.importInfos = []) :
    ([] ∉ stdLocalThirdPartyScheme.getAllowedImportOrders
      ∧ (opts.Scheme = .StdLocalThirdParty →
          verify opts [d]
            = .error "Import groups are not in the proper order: []"))
    ∧ ([] ∈ stdThirdPartyLocalScheme.getAllowedImportOrders
      ∧ (opts.Scheme = .StdThirdPartyLocal →
          verify opts [d] = .ok ())) := by
  obtain ⟨s, e, infos⟩ := d
  simp only at hinfos
  subst hinfos
  refine ⟨⟨by decide, ?_⟩, ⟨by decide, ?_⟩⟩
  all_goals
    intro h
    simp [verify, parseClassify, filterImportC, declIsOnlyImportC,
      getVerificationScheme, h, groupImports, groupLoop,
      verifyNonMixedGroups, verifyNonMixedGroupsLoop, verifyGroupOrder,
      stdLocalThirdPartyScheme, stdThirdPartyLocalScheme, goQuoteList,
      importTypeName, verifyImportInfoGroupsOrder, buildErrorString]
  all_goals rfl

/-- Witness for the amended C1: a concrete empty declaration fails under
stdLocalThirdParty and verifies under the spec-modelled
stdThirdPartyLocal. -/
theorem zero_record_decl_fails_witness :
    ([] ∉ stdLocalThirdPartyScheme.getAllowedImportOrders
      ∧ verify { Scheme := .StdLocalThirdParty, LocalPrefix := "" }
          [importDeclaration.mk 5 5 []]
        = .error "Import groups are not in the proper order: []")
    ∧ ([] ∈ stdThirdPartyLocalScheme.getAllowedImportOrders
      ∧ verify { Scheme := .StdThirdPartyLocal, LocalPrefix := "" }
          [importDeclaration.mk 5 5 []] = .ok ()) :=
  ⟨⟨(zero_record_decl_fails
      { Scheme := .StdLocalThirdParty, LocalPrefix := "" }
      (importDeclaration.mk 5 5 []) rfl).1.1,
    (zero_record_decl_fails
      { Scheme := .StdLocalThirdParty, LocalPrefix := "" }
      (importDeclaration.mk 5 5 []) rfl).1.2 rfl⟩,
   ⟨(zero_record_decl_fails
      { Scheme := .StdThirdPartyLocal, LocalPrefix := "" }
      (importDeclaration.mk 5 5 []) rfl).2.1,
    (zero_record_decl_fails
      { Scheme := .StdThirdPartyLocal, LocalPrefix := "" }
      (importDeclaration.mk 5 5 []) rfl).2.2 rfl⟩⟩

/-- Counterexample to claim C2 as stated: with the local prefix unset a
dotted path is classified localOrThirdParty, but the file consisting of
that single sorted import group does not verify — the group-order check
rejects the classification. -/
theorem dotted_path_empty_prefix_fails :
    classifyImportType "" "example.com/x" = importTypeLocalOrThirdParty
    ∧ stringsAreSorted ["example.com/x"] = true
    ∧ verify { Scheme := .StdLocalThirdParty, LocalPrefix := "" }
        [importDeclaration.mk 2 4
          [importInfo.mk 3 3 3 "example.com/x" importTypeUnknown]]
      = .error "Import groups are not in the proper order: [\"Local or third party\"]" :=
  ⟨by rfl, by rfl, by rfl⟩

/-- Claim C2 (amended): when the local-prefix option is unset, every
dotted import path is classified localOrThirdParty, but the downstream
group-order check does not tolerate the classification: no allowed
ordering of either built-in scheme mentions localOrThirdParty, and a file
whose import block is a single dotted import fails with an order
error. -/
theorem dotted_empty_prefix_order_error (opts : VerifyOptions)
    (d : importDeclaration) (info : importInfo)
    (hscheme : opts.Scheme = .StdLocalThirdParty
      ∨ opts.Scheme = .StdThirdPartyLocal)
    (hpre : opts.LocalPrefix = "")
    (hinfos : d.importInfos = [info])
    (hdot : stringContainsChar info.path '.' = true) :
    classifyImportType opts.LocalPrefix info.path = importTypeLocalOrThirdParty
    ∧ (∀ order ∈ stdLocalThirdPartyScheme.getAllowedImportOrders,
        importTypeLocalOrThirdParty ∉ order)
    ∧ (∀ order ∈ stdThirdPartyLocalScheme.getAllowedImportOrders,
        importTypeLocalOrThirdParty ∉ order)
    ∧ verify opts [d]
        = .error "Import groups are not in the proper order: [\"Local or third party\"]" := by
  have hclass : classifyImportType opts.LocalPrefix info.path
      = importTypeLocalOrThirdParty := by
    simp [classifyImportType, hdot, hpre]
  refine ⟨hclass, by decide, by decide, ?_⟩
  have hpathC : (info.path == "C") = false := by
    apply beq_eq_false_iff_ne.mpr
    intro heq
    rw [heq] at hdot
    exact absurd hdot (by decide)
  obtain ⟨s, e, infos⟩ := d
  simp only at hinfos
  subst hinfos
  rcases hscheme with h | h
  all_goals
    simp [verify, parseClassify, filterImportC, declIsOnlyImportC, hpathC,
      getVerificationScheme, h, groupImports, groupLoop, hclass,
      verifyNonMixedGroups, verifyNonMixedGroupsLoop, verifyGroupOrder,
      stdLocalThirdPartyScheme, stdThirdPartyLocalScheme, goQuoteList,
      importTypeName]
    rfl

/-- Witness for the amended C2: a concrete dotted single-import file with
an empty local prefix under the stdThirdPartyLocal scheme. -/
theorem dotted_empty_prefix_order_error_witness :
    classifyImportType "" "a.b/x" = importTypeLocalOrThirdParty
    ∧ (∀ order ∈ stdLocalThirdPartyScheme.getAllowedImportOrders,
        importTypeLocalOrThirdParty ∉ order)
    ∧ (∀ order ∈ stdThirdPartyLocalScheme.getAllowedImportOrders,
        importTypeLocalOrThirdParty ∉ order)
    ∧ verify { Scheme := .StdThirdPartyLocal, LocalPrefix := "" }
        [importDeclaration.mk 2 4
          [importInfo.mk 3 3 3 "a.b/x" importTypeUnknown]]
      = .error "Import groups are not in the proper order: [\"Local or third party\"]" :=
  dotted_empty_prefix_order_error
    { Scheme := .StdThirdPartyLocal, LocalPrefix := "" }
    (importDeclaration.mk 2 4
      [importInfo.mk 3 3 3 "a.b/x" importTypeUnknown])
    (importInfo.mk 3 3 3 "a.b/x" importTypeUnknown)
    (Or.inr rfl) rfl rfl (by decide)

set_option maxRecDepth 10000 in
/-- Counterexample to claim C3 as stated: a file whose first group is
unsorted (a step-7 violation) and whose second group is type-mixed (a
step-6 violation) produces only the step-6 error; the sortedness
violation is not included in the result, so the error does not aggregate
violations across steps 5-7. -/
theorem mixed_and_unsorted_single_error :
    verify { Scheme := .StdLocalThirdParty, LocalPrefix := "a.b" }
        [importDeclaration.mk 2 8
          [importInfo.mk 3 3 3 "os" importTypeUnknown,
           importInfo.mk 4 4 4 "fmt" importTypeUnknown,
           importInfo.mk 6 6 6 "c.d/x" importTypeUnknown,
           importInfo.mk 7 7 7 "a.b/y" importTypeUnknown]]
      = .error "Imports of different types are not allowed in the same group (1): c.d/x != a.b/y"
    ∧ stringsAreSorted ["os", "fmt"] = false
    ∧ ¬ ("not sorted".data
        <:+: "Imports of different types are not allowed in the same group (1): c.d/x != a.b/y".data) :=
  ⟨by rfl, by rfl, by decide⟩

/-- Claim C3 (amended): verification returns the first failing check's
error.  When the scheme resolves, the group count passes, mixing is
disallowed and the mixed-group check fails, that error alone is the
result — the sortedness check of step 7 is not consulted and its
violations are not aggregated into the message (aggregation happens only
inside step 7, across groups). -/
theorem verify_returns_first_error (opts : VerifyOptions)
    (decls : List importDeclaration) (scheme : verificationScheme) (e : String)
    (hlen : (filterImportC (parseClassify opts decls)).length = 1)
    (hs : getVerificationScheme opts = .ok scheme)
    (hmax : ¬ scheme.getMaxNumGroups
        < (groupImports (filterImportC (parseClassify opts decls))).length)
    (hmixedPolicy : scheme.getMixedGroupsAllowed = false)
    (hfail : verifyNonMixedGroups
          (groupImports (filterImportC (parseClassify opts decls)))
          = .error e
      ∨ (verifyNonMixedGroups
          (groupImports (filterImportC (parseClassify opts decls)))
          = .ok ()
        ∧ verifyGroupOrder
            (groupImports (filterImportC (parseClassify opts decls)))
            scheme.getAllowedImportOrders = .error e)) :
    verify opts decls = .error e := by
  rcases hfail with h | ⟨h1, h2⟩
  · simp [verify, hlen, hs, hmax, hmixedPolicy, h]
  · simp [verify, hlen, hs, hmax, hmixedPolicy, h1, h2]

set_option maxRecDepth 10000 in
/-- Witness for the amended C3, once for each step-6 rule: the concrete
mixed-and-unsorted file yields the mixed-group error alone, and a
concrete disallowed-ordering file with an unsorted group yields the
ordering error alone. -/
theorem verify_returns_first_error_witness :
    verify { Scheme := .StdLocalThirdParty, LocalPrefix := "a.b" }
        [importDeclaration.mk 2 8
          [importInfo.mk 3 3 3 "os" importTypeUnknown,
           importInfo.mk 4 4 4 "fmt" importTypeUnknown,
           importInfo.mk 6 6 6 "c.d/x" importTypeUnknown,
           importInfo.mk 7 7 7 "a.b/y" importTypeUnknown]]
      = .error "Imports of different types are not allowed in the same group (1): c.d/x != a.b/y"
    ∧ verify { Scheme := .StdLocalThirdParty, LocalPrefix := "a.b" }
        [importDeclaration.mk 2 9
          [importInfo.mk 3 3 3 "os" importTypeUnknown,
           importInfo.mk 5 5 5 "c.d/x" importTypeUnknown,
           importInfo.mk 7 7 7 "a.b/y" importTypeUnknown,
           importInfo.mk 8 8 8 "a.b/a" importTypeUnknown]]
      = .error "Import groups are not in the proper order: [\"Std\" \"Third party\" \"Local\"]" :=
  ⟨verify_returns_first_error
    { Scheme := .StdLocalThirdParty, LocalPrefix := "a.b" }
    [importDeclaration.mk 2 8
      [importInfo.mk 3 3 3 "os" importTypeUnknown,
       importInfo.mk 4 4 4 "fmt" importTypeUnknown,
       importInfo.mk 6 6 6 "c.d/x" importTypeUnknown,
       importInfo.mk 7 7 7 "a.b/y" importTypeUnknown]]
    stdLocalThirdPartyScheme
    "Imports of different types are not allowed in the same group (1): c.d/x != a.b/y"
    (by rfl) (by rfl) (by decide) (by rfl) (Or.inl (by rfl)),
   verify_returns_first_error
    { Scheme := .StdLocalThirdParty, LocalPrefix := "a.b" }
    [importDeclaration.mk 2 9
      [importInfo.mk 3 3 3 "os" importTypeUnknown,
       importInfo.mk 5 5 5 "c.d/x" importTypeUnknown,
       importInfo.mk 7 7 7 "a.b/y" importTypeUnknown,
       importInfo.mk 8 8 8 "a.b/a" importTypeUnknown]]
    stdLocalThirdPartyScheme
    "Import groups are not in the proper order: [\"Std\" \"Third party\" \"Local\"]"
    (by rfl) (by rfl) (by decide) (by rfl) (Or.inr ⟨by rfl, by rfl⟩)⟩

end Impi
